import Mathlib

/-
Verification of the resumable, concurrency-bounded bulk downloader
(src/scripts/download_bvbrc.py) against its natural-language specification.

The per-identifier logic (load_accessions, load_downloaded, fetch_once,
download_accession, the batch loop of main and the final summary) is embedded
as pure Lean functions over an oracle describing the HTTP outcome of each
attempt.  File contents are lists of lines; the three files of the output
directory form a DirState.  The per-run effects are an explicit event list
folded into the DirState.  Concurrency-specific properties use a transition
system for the semaphore (TaskPhase, SemStep) and an interleaving relation on
per-task event lists (Interleaving).
-/

namespace BvBrc

/-- Model of Python str.strip with no argument: remove leading and trailing
whitespace characters.  Written over the character list so that it computes by
reduction and its properties can be proved by list induction. -/
def pyStrip (s : String) : String :=
  String.mk (((s.data.dropWhile Char.isWhitespace).reverse.dropWhile
      Char.isWhitespace).reverse)

/-- Translation of load_accessions (src/scripts/download_bvbrc.py, lines 50-57):
read the input file line by line, strip each line, keep the non-empty results,
preserving order.  Duplicates are kept. -/
def load_accessions (lines : List String) : List String :=
  (lines.map pyStrip).filter (fun a => a != "")

/-- Translation of load_downloaded (lines 60-69): the set of stripped non-empty
lines of the success-ledger file; a missing file gives the empty set.  The set
is represented by a list, used only through membership and distinct count. -/
def load_downloaded (lines : List String) : List String :=
  (lines.map pyStrip).filter (fun a => a != "")

/-- Shallow JSON values, for the payloads the script obtains from json.loads and
the record objects it writes with json.dumps. -/
inductive Json where
  | null
  | bool (b : Bool)
  | num (n : Int)
  | str (s : String)
  | arr (elems : List Json)
  | obj (fields : List (String × Json))

/-- Observable effects of one run, in program order.  Each constructor names the
line of src/scripts/download_bvbrc.py it comes from. -/
inductive Event where
  | fetch (acc : String)            -- one HTTP GET attempt, session.get, line 79
  | sleepSec (n : Nat)              -- the retry backoff asyncio.sleep(2), line 110
  | appendRecord (record : Json)    -- append_line(RAW_JSONL_FILE, dumps record), line 104
  | appendDownloaded (acc : String) -- append_line(DOWNLOADED_LIST, acc), line 105
  | appendFailed (line : String)    -- append_line(FAILED_LIST, line), lines 112 and 116
  | tick                            -- pbar.update(1), lines 106, 113, 117
  | batchPause                      -- asyncio.sleep(0.1) between batches, line 161

/-- Raw outcome of the HTTP GET of one attempt, before classification: a
response with status code and body text, a network-layer exception
(aiohttp.ClientError or asyncio.TimeoutError, with class name and message), or
any other exception raised during the attempt. -/
inductive HttpAttempt where
  | response (status : Nat) (body : String)
  | netException (ename emsg : String)
  | otherException (ename emsg : String)

/-- Classified error of one fetch attempt: net covers aiohttp.ClientError and
asyncio.TimeoutError (the retryable class of line 108), other is everything
else (line 115).  Both carry the exception class name and message. -/
inductive FetchErr where
  | net (ename emsg : String)
  | other (ename emsg : String)

/-- Translation of fetch_once (lines 77-88).  resp.raise_for_status() raises
aiohttp.ClientResponseError, a ClientError, exactly when the status is 400 or
above; otherwise the body text is parsed with json.loads (modelled by the parse
argument) and a parse failure degrades to the fallback object with fields
accession and raw holding the raw body text. -/
def fetch_once (parse : String → Option Json) (acc : String) :
    HttpAttempt → Except FetchErr Json
  | .response status body =>
      if 400 ≤ status then
        .error (.net "ClientResponseError" (toString status))
      else
        match parse body with
        | some j => .ok j
        | none => .ok (.obj [("accession", .str acc), ("raw", .str body)])
  | .netException e m => .error (.net e m)
  | .otherException e m => .error (.other e m)

/-- The failure-ledger line written on a terminal failure, lines 112 and 116:
the accession, a tab, the exception class name, a colon-space, and the message. -/
def failLine (acc ename emsg : String) : String :=
  acc ++ "\t" ++ ename ++ ": " ++ emsg

/-- The success path of download_accession after a fetch attempt returned a
payload (lines 102-107): build the record object, append it to the record log,
then append the accession to the success ledger, tick and return True.
recordErr models an exception (class name, message) raised by the record-log
append itself: such an exception is not a ClientError, so it falls to the
catch-all branch (lines 115-118) and the success-ledger append never happens. -/
def successTail (recordErr : Option (String × String)) (acc : String)
    (payload : Json) : Bool × List Event :=
  match recordErr with
  | none =>
      (true, [Event.appendRecord (.obj [("accession", .str acc), ("data", payload)]),
              Event.appendDownloaded acc, Event.tick])
  | some (e, m) => (false, [Event.appendFailed (failLine acc e m), Event.tick])

/-- Translation of download_accession (lines 91-118), the two iterations of the
for-attempt-in-range(2) loop unrolled.  oracle gives the raw HTTP outcome of
attempt 0 and attempt 1.  A network or HTTP error on attempt 0 sleeps 2 seconds
and retries; the same error class on attempt 1 is terminal and writes one
failure line; any other exception is terminal at once with no retry.  The
semaphore that the body holds (line 97) is modelled by SemStep below. -/
def download_accession (parse : String → Option Json)
    (recordErr : Option (String × String)) (acc : String)
    (oracle : Nat → HttpAttempt) : Bool × List Event :=
  match fetch_once parse acc (oracle 0) with
  | .ok payload =>
      let t := successTail recordErr acc payload
      (t.1, Event.fetch acc :: t.2)
  | .error (.other e m) =>
      (false, [Event.fetch acc, Event.appendFailed (failLine acc e m), Event.tick])
  | .error (.net _ _) =>
      match fetch_once parse acc (oracle 1) with
      | .ok payload =>
          let t := successTail recordErr acc payload
          (t.1, Event.fetch acc :: Event.sleepSec 2 :: Event.fetch acc :: t.2)
      | .error (.net e m) =>
          (false, [Event.fetch acc, Event.sleepSec 2, Event.fetch acc,
                   Event.appendFailed (failLine acc e m), Event.tick])
      | .error (.other e m) =>
          (false, [Event.fetch acc, Event.sleepSec 2, Event.fetch acc,
                   Event.appendFailed (failLine acc e m), Event.tick])

/-- The boolean result download_accession returns for one accession. -/
def itemResult (parse : String → Option Json)
    (recordErr : Option (String × String)) (acc : String)
    (oracle : Nat → HttpAttempt) : Bool :=
  (download_accession parse recordErr acc oracle).1

/-- The events download_accession emits for one accession. -/
def itemTrace (parse : String → Option Json)
    (recordErr : Option (String × String)) (acc : String)
    (oracle : Nat → HttpAttempt) : List Event :=
  (download_accession parse recordErr acc oracle).2

/-- The three files of the output directory: raw_data.jsonl (one JSON object per
line), downloaded.txt and failed_accessions.txt (as lines).  A file that does
not exist yet is the empty list; main touches all three at startup, lines
124-126. -/
structure DirState where
  records : List Json
  successLines : List String
  failedLines : List String

/-- Effect of one event on the output directory: the three append_line targets
append one line each; the other events touch no file. -/
def applyEvent (d : DirState) : Event → DirState
  | .appendRecord j => { d with records := d.records ++ [j] }
  | .appendDownloaded a => { d with successLines := d.successLines ++ [a] }
  | .appendFailed l => { d with failedLines := d.failedLines ++ [l] }
  | _ => d

/-- Lines 128-130 of main: the work list, computed once at startup as the
accession list filtered by membership in the success ledger, in input order.
Identifiers are not deduplicated. -/
def computeTodo (inputLines successLines : List String) : List String :=
  (load_accessions inputLines).filter
    (fun a => !decide (a ∈ load_downloaded successLines))

/-- The slices todo[i:i+batch_size] of the batch loop, lines 146-149, with
structural fuel so that the function computes by reduction. -/
def chunksAux (fuel n : Nat) (xs : List String) : List (List String) :=
  match fuel, xs with
  | 0, _ => []
  | _, [] => []
  | fuel + 1, x :: rest => (x :: rest).take n :: chunksAux fuel n ((x :: rest).drop n)

/-- The batches of the batch loop: slices of size n (the code uses
batch_size = 100, line 146). -/
def chunks (n : Nat) (xs : List String) : List (List String) :=
  chunksAux xs.length n xs

/-- One batch, lines 150-158: one task per accession, gathered with
return_exceptions=True, so every result is collected independently of its
siblings.  recordErrF and oracleF give each accession its record-append
behaviour and its HTTP outcomes. -/
def batchResults (parse : String → Option Json)
    (recordErrF : String → Option (String × String))
    (oracleF : String → Nat → HttpAttempt) (batch : List String) : List Bool :=
  batch.map (fun acc => itemResult parse (recordErrF acc) acc (oracleF acc))

/-- The events of one batch in their sequential serialization (the interleaving
of tasks inside a batch is treated by the Interleaving relation below),
followed by the pause between batches, line 161. -/
def batchEvents (parse : String → Option Json)
    (recordErrF : String → Option (String × String))
    (oracleF : String → Nat → HttpAttempt) (batch : List String) : List Event :=
  batch.flatMap (fun acc => itemTrace parse (recordErrF acc) acc (oracleF acc))
    ++ [Event.batchPause]

/-- All events of the batch loop over the work list, lines 146-161. -/
def runEvents (parse : String → Option Json)
    (recordErrF : String → Option (String × String))
    (oracleF : String → Nat → HttpAttempt) (todo : List String) : List Event :=
  (chunks 100 todo).flatMap (batchEvents parse recordErrF oracleF)

/-- All gathered per-task results of the batch loop, in order. -/
def runResults (parse : String → Option Json)
    (recordErrF : String → Option (String × String))
    (oracleF : String → Nat → HttpAttempt) (todo : List String) : List Bool :=
  (chunks 100 todo).flatMap (batchResults parse recordErrF oracleF)

/-- Result of one completed run of main: the final directory state and, when a
summary is printed, its three counts (succeeded, failed, total). -/
structure RunOutcome where
  finalDir : DirState
  summary : Option (Nat × Nat × Nat)

/-- The counts of the final summary, lines 163-173: the succeeded count is the
size of the set load_downloaded of the final success-ledger file (line 164),
the failed count is the number of non-blank lines of the final failure-ledger
file (lines 165-168), and the total is their sum (line 173). -/
def summaryCounts (d : DirState) : Nat × Nat × Nat :=
  ((load_downloaded d.successLines).dedup.length,
   (d.failedLines.filter (fun l => pyStrip l != "")).length,
   (load_downloaded d.successLines).dedup.length
     + (d.failedLines.filter (fun l => pyStrip l != "")).length)

/-- Translation of main (lines 121-173) as one completed sequential run.  When
the work list is empty, main prints that everything is already downloaded and
returns before the summary (lines 132-134): the summary field is none.
Otherwise the batch loop runs, and the summary recomputes the succeeded count
as the size of the set load_downloaded of the final success-ledger file (line
164) and the failed count as the number of non-blank lines of the final
failure-ledger file (lines 165-168); the total is their sum (line 173). -/
def runMain (parse : String → Option Json)
    (recordErrF : String → Option (String × String))
    (oracleF : String → Nat → HttpAttempt)
    (inputLines : List String) (dir : DirState) : RunOutcome :=
  let todo := computeTodo inputLines dir.successLines
  if todo.isEmpty then
    { finalDir := dir, summary := none }
  else
    let final := (runEvents parse recordErrF oracleF todo).foldl applyEvent dir
    { finalDir := final, summary := some (summaryCounts final) }

/-- One invocation of the script against a directory: its per-accession
behaviours, its input lines, and the number of events that take effect before
an external interruption (stop at least the trace length means the run
completed). -/
structure RunSpec where
  recordErrF : String → Option (String × String)
  oracleF : String → Nat → HttpAttempt
  inputLines : List String
  stop : Nat

/-- The directory state after one (possibly interrupted) invocation. -/
def applyRun (parse : String → Option Json) (dir : DirState) (r : RunSpec) :
    DirState :=
  ((runEvents parse r.recordErrF r.oracleF
      (computeTodo r.inputLines dir.successLines)).take r.stop).foldl applyEvent dir

/-- The directory state after a sequence of invocations against the same
directory. -/
def runSeqDir (parse : String → Option Json) (runs : List RunSpec)
    (dir : DirState) : DirState :=
  runs.foldl (applyRun parse) dir

/-- The accessions of the HTTP GET events of a trace, in order. -/
def fetchIds (tr : List Event) : List String :=
  tr.filterMap (fun e => match e with | .fetch a => some a | _ => none)

/-- The success-ledger lines a trace appends, in order. -/
def succAppends (tr : List Event) : List String :=
  tr.filterMap (fun e => match e with | .appendDownloaded a => some a | _ => none)

/-- The failure-ledger lines a trace appends, in order. -/
def failAppends (tr : List Event) : List String :=
  tr.filterMap (fun e => match e with | .appendFailed l => some l | _ => none)

/-- The record-log objects a trace appends, in order. -/
def recAppends (tr : List Event) : List Json :=
  tr.filterMap (fun e => match e with | .appendRecord j => some j | _ => none)

/-- The accession a record-log append is tagged with: the record objects built
on line 103 always carry the accession as their first field. -/
def recAcc : Event → Option String
  | .appendRecord (Json.obj (("accession", Json.str a) :: _)) => some a
  | _ => none

/-- The accessions of the record-log appends of a trace. -/
def recIds (tr : List Event) : List String :=
  tr.filterMap recAcc

/-- Position of one download_accession task relative to the semaphore of line
141: waiting before the async-with of line 97 lets it enter, running while it holds
a permit (the whole body, lines 98-118, including the retry), finished after
the body returned and the permit was released. -/
inductive TaskPhase where
  | waiting
  | running
  | finished
deriving DecidableEq

/-- How many tasks currently hold a semaphore permit. -/
def runningCount (ts : List TaskPhase) : Nat :=
  ts.countP (fun t => decide (t = TaskPhase.running))

/-- Transitions of the task pool under asyncio.Semaphore(C): a waiting task may
enter its body only when fewer than C tasks are running (semaphore acquire); a
running task may finish at any time (semaphore release on exit of the
async-with block). -/
inductive SemStep (C : Nat) : List TaskPhase → List TaskPhase → Prop where
  | acquire (ts : List TaskPhase) (i : Nat) :
      ts.get? i = some .waiting → runningCount ts < C →
      SemStep C ts (ts.set i .running)
  | release (ts : List TaskPhase) (i : Nat) :
      ts.get? i = some .running → SemStep C ts (ts.set i .finished)

/-- Reachability under SemStep. -/
inductive SemReach (C : Nat) : List TaskPhase → List TaskPhase → Prop where
  | refl (ts : List TaskPhase) : SemReach C ts ts
  | step {ts s s' : List TaskPhase} :
      SemReach C ts s → SemStep C s s' → SemReach C ts s'

/-- An interleaving of the event lists of several concurrent tasks: at each
step, the schedule emits the next event of one task; within a task, event
order is preserved. -/
inductive Interleaving : List (List Event) → List Event → Prop where
  | nil {ls : List (List Event)} :
      (∀ l ∈ ls, l = []) → Interleaving ls []
  | cons {ls : List (List Event)} {tr : List Event} (i : Nat) (e : Event)
      (tl : List Event) :
      ls.get? i = some (e :: tl) → Interleaving (ls.set i tl) tr →
      Interleaving ls (e :: tr)

/-- In an event list, every success-ledger append is preceded by a record-log
append for the same accession, given that the accessions in S already have a
record: the head may be a ledger append only for an accession of S, and the
rest must satisfy the same with any record append of the head added to S. -/
def recordFirstFrom (S : List String) : List Event → Prop
  | [] => True
  | e :: l =>
      (∀ a, e = Event.appendDownloaded a → a ∈ S) ∧
      recordFirstFrom (S ++ (recAcc e).toList) l

/-! Basic lemmas about the embedding. -/

lemma chunksAux_flatten {n : Nat} (hn : 0 < n) :
    ∀ (fuel : Nat) (xs : List String), xs.length ≤ fuel →
      (chunksAux fuel n xs).flatten = xs := by
  intro fuel
  induction fuel with
  | zero =>
      intro xs hxs
      cases xs with
      | nil => rfl
      | cons x rest => simp at hxs
  | succ fuel ih =>
      intro xs hxs
      cases xs with
      | nil => rfl
      | cons x rest =>
          have hlen : ((x :: rest).drop n).length ≤ fuel := by
            simp only [List.length_drop, List.length_cons] at *
            omega
          simp only [chunksAux, List.flatten_cons, ih _ hlen,
            List.take_append_drop]

lemma chunks_flatten {n : Nat} (hn : 0 < n) (xs : List String) :
    (chunks n xs).flatten = xs :=
  chunksAux_flatten hn xs.length xs le_rfl

lemma filterMap_flatMap' {α β γ : Type} (l : List α) (f : α → List β)
    (g : β → Option γ) :
    (l.flatMap f).filterMap g = l.flatMap (fun a => (f a).filterMap g) := by
  induction l with
  | nil => rfl
  | cons x rest ih => simp [List.flatMap_cons, List.filterMap_append, ih]

/-- Extracting per-event data from the whole batch loop is the concatenation of
the per-item extractions, in work-list order; the inter-batch pauses carry no
data. -/
lemma filterMap_runEvents {α : Type} (g : Event → Option α)
    (hg : g Event.batchPause = none) (parse : String → Option Json)
    (recordErrF : String → Option (String × String))
    (oracleF : String → Nat → HttpAttempt) (todo : List String) :
    (runEvents parse recordErrF oracleF todo).filterMap g
      = todo.flatMap
          (fun acc => (itemTrace parse (recordErrF acc) acc (oracleF acc)).filterMap g) := by
  unfold runEvents
  rw [filterMap_flatMap']
  have hbatch : ∀ b : List String,
      (batchEvents parse recordErrF oracleF b).filterMap g
        = b.flatMap
            (fun acc => (itemTrace parse (recordErrF acc) acc (oracleF acc)).filterMap g) := by
    intro b
    unfold batchEvents
    rw [List.filterMap_append, filterMap_flatMap']
    simp [hg]
  have haux : ∀ (bs : List (List String)),
      bs.flatMap (fun b => b.flatMap
          (fun acc => (itemTrace parse (recordErrF acc) acc (oracleF acc)).filterMap g))
        = (bs.flatten).flatMap
            (fun acc => (itemTrace parse (recordErrF acc) acc (oracleF acc)).filterMap g) := by
    intro bs
    induction bs with
    | nil => rfl
    | cons b rest ih =>
        simp only [List.flatMap_cons, List.flatten_cons, List.flatMap_append, ih]
  calc
    ((chunks 100 todo).flatMap
        (fun b => (batchEvents parse recordErrF oracleF b).filterMap g))
        = (chunks 100 todo).flatMap
            (fun b => b.flatMap
              (fun acc => (itemTrace parse (recordErrF acc) acc (oracleF acc)).filterMap g)) := by
          exact List.flatMap_congr (fun b _ => hbatch b)
    _ = ((chunks 100 todo).flatten).flatMap
            (fun acc => (itemTrace parse (recordErrF acc) acc (oracleF acc)).filterMap g) :=
          haux _
    _ = todo.flatMap
            (fun acc => (itemTrace parse (recordErrF acc) acc (oracleF acc)).filterMap g) := by
          rw [chunks_flatten (by omega)]

lemma foldl_applyEvent_records (tr : List Event) (d : DirState) :
    (tr.foldl applyEvent d).records = d.records ++ recAppends tr := by
  induction tr generalizing d with
  | nil => simp [recAppends]
  | cons e rest ih =>
      cases e <;> simp [List.foldl_cons, applyEvent, ih, recAppends,
        List.filterMap_cons]

lemma foldl_applyEvent_success (tr : List Event) (d : DirState) :
    (tr.foldl applyEvent d).successLines = d.successLines ++ succAppends tr := by
  induction tr generalizing d with
  | nil => simp [succAppends]
  | cons e rest ih =>
      cases e <;> simp [List.foldl_cons, applyEvent, ih, succAppends,
        List.filterMap_cons]

lemma foldl_applyEvent_failed (tr : List Event) (d : DirState) :
    (tr.foldl applyEvent d).failedLines = d.failedLines ++ failAppends tr := by
  induction tr generalizing d with
  | nil => simp [failAppends]
  | cons e rest ih =>
      cases e <;> simp [List.foldl_cons, applyEvent, ih, failAppends,
        List.filterMap_cons]

lemma mem_computeTodo {a : String} {input s : List String} :
    a ∈ computeTodo input s ↔
      a ∈ load_accessions input ∧ a ∉ load_downloaded s := by
  simp [computeTodo, List.mem_filter]

lemma computeTodo_sublist (input s : List String) :
    List.Sublist (computeTodo input s) (load_accessions input) :=
  List.filter_sublist _

lemma computeTodo_nil_of_all {input s : List String}
    (h : ∀ a ∈ load_accessions input, a ∈ load_downloaded s) :
    computeTodo input s = [] := by
  unfold computeTodo
  rw [List.filter_eq_nil_iff]
  intro a ha
  simp [h a ha]

/-- The HTTP GET attempts of one download_accession call: one fetch of the own
accession, or two when the first attempt failed with a network or HTTP error. -/
lemma fetchIds_itemTrace (parse : String → Option Json)
    (recordErr : Option (String × String)) (acc : String)
    (oracle : Nat → HttpAttempt) :
    fetchIds (itemTrace parse recordErr acc oracle) = [acc] ∨
      fetchIds (itemTrace parse recordErr acc oracle) = [acc, acc] := by
  unfold itemTrace download_accession
  cases h0 : fetch_once parse acc (oracle 0) with
  | ok payload =>
      cases recordErr <;> simp [successTail, fetchIds, List.filterMap_cons]
  | error err =>
      cases err with
      | other e m => simp [fetchIds, List.filterMap_cons]
      | net e m =>
          cases h1 : fetch_once parse acc (oracle 1) with
          | ok payload =>
              cases recordErr <;>
                simp [successTail, fetchIds, List.filterMap_cons]
          | error err2 =>
              cases err2 <;> simp [fetchIds, List.filterMap_cons]

/-- One download_accession call appends its own accession to the success ledger
exactly when it returns True, and appends nothing to it otherwise. -/
lemma succAppends_itemTrace (parse : String → Option Json)
    (recordErr : Option (String × String)) (acc : String)
    (oracle : Nat → HttpAttempt) :
    succAppends (itemTrace parse recordErr acc oracle)
      = if itemResult parse recordErr acc oracle then [acc] else [] := by
  unfold itemTrace itemResult download_accession
  cases h0 : fetch_once parse acc (oracle 0) with
  | ok payload =>
      cases recordErr <;> simp [successTail, succAppends, List.filterMap_cons]
  | error err =>
      cases err with
      | other e m => simp [succAppends, List.filterMap_cons]
      | net e m =>
          cases h1 : fetch_once parse acc (oracle 1) with
          | ok payload =>
              cases recordErr <;>
                simp [successTail, succAppends, List.filterMap_cons]
          | error err2 =>
              cases err2 <;> simp [succAppends, List.filterMap_cons]

/-- One download_accession call either returns True and writes no failure line,
or returns False and writes exactly one failure line, of the ledger format, for
its own accession. -/
lemma failAppends_itemTrace (parse : String → Option Json)
    (recordErr : Option (String × String)) (acc : String)
    (oracle : Nat → HttpAttempt) :
    (itemResult parse recordErr acc oracle = true ∧
        failAppends (itemTrace parse recordErr acc oracle) = []) ∨
      (itemResult parse recordErr acc oracle = false ∧
        ∃ e m, failAppends (itemTrace parse recordErr acc oracle)
          = [failLine acc e m]) := by
  unfold itemTrace itemResult download_accession
  cases h0 : fetch_once parse acc (oracle 0) with
  | ok payload =>
      cases hr : recordErr with
      | none => simp [successTail, failAppends, List.filterMap_cons]
      | some em =>
          right
          refine ⟨by simp [successTail], em.1, em.2, ?_⟩
          simp [successTail, failAppends, List.filterMap_cons]
  | error err =>
      cases err with
      | other e m =>
          exact Or.inr ⟨rfl, e, m, by simp [failAppends, List.filterMap_cons]⟩
      | net e m =>
          cases h1 : fetch_once parse acc (oracle 1) with
          | ok payload =>
              cases hr : recordErr with
              | none => simp [successTail, failAppends, List.filterMap_cons]
              | some em =>
                  right
                  refine ⟨by simp [successTail], em.1, em.2, ?_⟩
                  simp [successTail, failAppends, List.filterMap_cons]
          | error err2 =>
              cases err2 with
              | net e2 m2 =>
                  exact Or.inr ⟨rfl, e2, m2, by
                    simp [failAppends, List.filterMap_cons]⟩
              | other e2 m2 =>
                  exact Or.inr ⟨rfl, e2, m2, by
                    simp [failAppends, List.filterMap_cons]⟩

/-- With a record-append error in force, download_accession never returns True:
every success path dies in the catch-all branch before the ledger append. -/
lemma itemResult_recordErr (parse : String → Option Json)
    (em : String × String) (acc : String) (oracle : Nat → HttpAttempt) :
    itemResult parse (some em) acc oracle = false := by
  unfold itemResult download_accession
  cases h0 : fetch_once parse acc (oracle 0) with
  | ok payload => simp [successTail]
  | error err =>
      cases err with
      | other e m => rfl
      | net e m =>
          cases h1 : fetch_once parse acc (oracle 1) with
          | ok payload => simp [successTail]
          | error err2 => cases err2 <;> rfl

/-- The top-level field names of a JSON object (empty for non-objects). -/
def topFields : Json → List String
  | .obj fields => fields.map Prod.fst
  | _ => []

/-- C2: on a network or HTTP error of the first attempt, exactly one retry is
performed, after the fixed constant backoff asyncio.sleep(2); a network or
HTTP error on the retry is terminal and writes exactly one failure-ledger line
carrying the exception class name and message; an error of any other class on
the first attempt is terminal at once, with a single fetch attempt and one
failure-ledger line carrying its class name and message. -/
theorem c2_retry_policy (parse : String → Option Json)
    (recordErr : Option (String × String)) (acc : String)
    (oracle : Nat → HttpAttempt) :
    (∀ e1 m1, fetch_once parse acc (oracle 0) = .error (.net e1 m1) →
        (itemTrace parse recordErr acc oracle).take 3
            = [Event.fetch acc, Event.sleepSec 2, Event.fetch acc] ∧
        (fetchIds (itemTrace parse recordErr acc oracle)).length = 2) ∧
    (∀ e1 m1 e2 m2, fetch_once parse acc (oracle 0) = .error (.net e1 m1) →
        fetch_once parse acc (oracle 1) = .error (.net e2 m2) →
        itemResult parse recordErr acc oracle = false ∧
        itemTrace parse recordErr acc oracle
          = [Event.fetch acc, Event.sleepSec 2, Event.fetch acc,
             Event.appendFailed (failLine acc e2 m2), Event.tick]) ∧
    (∀ e m, fetch_once parse acc (oracle 0) = .error (.other e m) →
        itemResult parse recordErr acc oracle = false ∧
        itemTrace parse recordErr acc oracle
          = [Event.fetch acc, Event.appendFailed (failLine acc e m), Event.tick]) := by
  refine ⟨?_, ?_, ?_⟩
  · intro e1 m1 h0
    unfold itemTrace download_accession
    rw [h0]
    cases h1 : fetch_once parse acc (oracle 1) with
    | ok payload =>
        cases recordErr <;> simp [successTail, fetchIds, List.filterMap_cons]
    | error err2 => cases err2 <;> simp [fetchIds, List.filterMap_cons]
  · intro e1 m1 e2 m2 h0 h1
    unfold itemTrace itemResult download_accession
    rw [h0, h1]
    exact ⟨rfl, rfl⟩
  · intro e m h0
    unfold itemTrace itemResult download_accession
    rw [h0]
    exact ⟨rfl, rfl⟩

/-- Witness for C2 at a concrete input: first attempt times out, retry fails
with a connector error; the result is False and the trace is the two fetches
around the 2 second backoff followed by the one failure line. -/
theorem c2_retry_policy_witness :
    itemResult (fun _ => none) none "A"
        (fun n => if n = 0 then HttpAttempt.netException "TimeoutError" "t"
                  else HttpAttempt.netException "ClientConnectorError" "c") = false ∧
    itemTrace (fun _ => none) none "A"
        (fun n => if n = 0 then HttpAttempt.netException "TimeoutError" "t"
                  else HttpAttempt.netException "ClientConnectorError" "c")
      = [Event.fetch "A", Event.sleepSec 2, Event.fetch "A",
         Event.appendFailed (failLine "A" "ClientConnectorError" "c"), Event.tick] :=
  (c2_retry_policy (fun _ => none) none "A" _).2.1
    "TimeoutError" "t" "ClientConnectorError" "c" rfl rfl

/-- The count of running tasks, after a waiting task acquires. -/
lemma runningCount_set_running {ts : List TaskPhase} {i : Nat}
    (h : ts.get? i = some .waiting) :
    runningCount (ts.set i .running) = runningCount ts + 1 := by
  induction ts generalizing i with
  | nil => simp at h
  | cons t rest ih =>
      cases i with
      | zero =>
          simp only [List.get?] at h
          cases h
          simp [runningCount, List.countP_cons]
      | succ j =>
          simp only [List.get?] at h
          have := ih (i := j) h
          cases t <;> simp_all [runningCount, List.countP_cons, List.set]

/-- The count of running tasks, after a running task releases. -/
lemma runningCount_set_finished {ts : List TaskPhase} {i : Nat}
    (h : ts.get? i = some .running) :
    runningCount (ts.set i .finished) + 1 = runningCount ts := by
  induction ts generalizing i with
  | nil => simp at h
  | cons t rest ih =>
      cases i with
      | zero =>
          simp only [List.get?] at h
          cases h
          simp [runningCount, List.countP_cons]
      | succ j =>
          simp only [List.get?] at h
          have hih := ih (i := j) h
          cases t <;> simp [List.set, runningCount, List.countP_cons] at hih ⊢
          all_goals omega

lemma runningCount_replicate_waiting (n : Nat) :
    runningCount (List.replicate n .waiting) = 0 := by
  induction n with
  | zero => rfl
  | succ k ih =>
      have hstep : runningCount (List.replicate (k + 1) TaskPhase.waiting)
          = runningCount (List.replicate k TaskPhase.waiting) := by
        simp [List.replicate_succ, runningCount, List.countP_cons]
      rw [hstep, ih]

/-- C3: for any configured bound C and any number n of download_accession
tasks, in every state reachable from the all-waiting pool under the semaphore
transitions, at most C tasks are inside the async-with body that performs the
fetch attempts (including the retry, which runs while the permit is held,
lines 97-118 and 141). -/
theorem c3_concurrency_bound (C n : Nat) (s : List TaskPhase)
    (h : SemReach C (List.replicate n .waiting) s) :
    runningCount s ≤ C := by
  induction h with
  | refl => simp [runningCount_replicate_waiting]
  | step hreach hstep ih =>
      cases hstep with
      | acquire i hw hlt =>
          rw [runningCount_set_running hw]
          omega
      | release i hr =>
          have := runningCount_set_finished hr
          omega

/-- Witness for C3 at a concrete input: with bound 1 and two tasks, the state
after one acquire is reachable and has one running task, within the bound. -/
theorem c3_concurrency_bound_witness :
    runningCount [TaskPhase.running, TaskPhase.waiting] ≤ 1 := by
  have hstep : SemStep 1 (List.replicate 2 TaskPhase.waiting)
      [TaskPhase.running, TaskPhase.waiting] := by
    have hacq := SemStep.acquire (C := 1)
      [TaskPhase.waiting, TaskPhase.waiting] 0 rfl (by decide)
    exact hacq
  exact c3_concurrency_bound 1 2 _ (SemReach.step (SemReach.refl _) hstep)

/-- C5, counterexample to the stated line shape: for accession A, a 200
response with unparseable body x is a success and produces exactly one record
line, but that line is an object with top-level fields accession and data (the
fallback object with fields accession and raw sits nested under data); the
line itself never has the top-level shape with fields accession and raw. -/
theorem c5_counterexample :
    itemResult (fun _ => none) none "A" (fun _ => HttpAttempt.response 200 "x") = true ∧
    recAppends (itemTrace (fun _ => none) none "A" (fun _ => HttpAttempt.response 200 "x"))
      = [Json.obj [("accession", Json.str "A"),
          ("data", Json.obj [("accession", Json.str "A"), ("raw", Json.str "x")])]] ∧
    topFields (Json.obj [("accession", Json.str "A"),
        ("data", Json.obj [("accession", Json.str "A"), ("raw", Json.str "x")])])
      = ["accession", "data"] ∧
    (∀ v, Json.obj [("accession", Json.str "A"),
        ("data", Json.obj [("accession", Json.str "A"), ("raw", Json.str "x")])]
      ≠ Json.obj [("accession", Json.str "A"), ("raw", v)]) := by
  refine ⟨rfl, rfl, rfl, ?_⟩
  intro v h
  simp [Json.obj.injEq] at h

/-- C5 amended: a response with status below 400 whose body fails to parse is a
Success: the identifier is appended to the success ledger and one record line
is written; that line is an object with fields accession and data, where data
is the fallback object with fields accession and raw holding the raw body
text; a parseable body gives the same line shape with the parsed payload as
data. -/
theorem c5_parse_fallback (parse : String → Option Json) (acc body : String)
    (oracle : Nat → HttpAttempt) (st : Nat)
    (h0 : oracle 0 = HttpAttempt.response st body) (hst : st < 400) :
    itemResult parse none acc oracle = true ∧
    ∃ payload,
      itemTrace parse none acc oracle
        = [Event.fetch acc,
           Event.appendRecord (Json.obj [("accession", .str acc), ("data", payload)]),
           Event.appendDownloaded acc, Event.tick] ∧
      (parse body = none →
          payload = Json.obj [("accession", .str acc), ("raw", .str body)]) ∧
      (∀ j, parse body = some j → payload = j) := by
  have hfo : fetch_once parse acc (oracle 0)
      = .ok (match parse body with
             | some j => j
             | none => .obj [("accession", .str acc), ("raw", .str body)]) := by
    rw [h0]
    simp only [fetch_once]
    rw [if_neg (by omega)]
    cases parse body <;> rfl
  constructor
  · unfold itemResult download_accession
    rw [hfo]
    simp [successTail]
  · refine ⟨(match parse body with
             | some j => j
             | none => .obj [("accession", .str acc), ("raw", .str body)]), ?_, ?_, ?_⟩
    · unfold itemTrace download_accession
      rw [hfo]
      simp [successTail]
    · intro hp
      rw [hp]
    · intro j hp
      rw [hp]

/-- Witness for C5 at a concrete input: accession A, status 200, parseable body
42; the record line holds the parsed payload under data. -/
theorem c5_parse_fallback_witness :
    itemResult (fun b => if b = "42" then some (Json.num 42) else none) none "A"
        (fun _ => HttpAttempt.response 200 "42") = true ∧
    itemTrace (fun b => if b = "42" then some (Json.num 42) else none) none "A"
        (fun _ => HttpAttempt.response 200 "42")
      = [Event.fetch "A",
         Event.appendRecord (Json.obj [("accession", .str "A"), ("data", Json.num 42)]),
         Event.appendDownloaded "A", Event.tick] := by
  have h := c5_parse_fallback (fun b => if b = "42" then some (Json.num 42) else none)
    "A" "42" (fun _ => HttpAttempt.response 200 "42") 200 rfl (by omega)
  obtain ⟨hres, payload, htrace, hnone, hsome⟩ := h
  refine ⟨hres, ?_⟩
  rw [htrace, hsome (Json.num 42) (by simp)]

lemma fetch_mem_iff {a : String} {tr : List Event} :
    Event.fetch a ∈ tr ↔ a ∈ fetchIds tr := by
  unfold fetchIds
  rw [List.mem_filterMap]
  constructor
  · intro h
    exact ⟨Event.fetch a, h, rfl⟩
  · rintro ⟨e, he, hg⟩
    cases e <;> simp at hg
    rw [hg] at he
    exact he

/-- The accessions fetched by the whole batch loop, with their multiplicity and
order: the per-item fetch lists concatenated in work-list order. -/
lemma fetchIds_runEvents (parse : String → Option Json)
    (recordErrF : String → Option (String × String))
    (oracleF : String → Nat → HttpAttempt) (todo : List String) :
    fetchIds (runEvents parse recordErrF oracleF todo)
      = todo.flatMap
          (fun acc => fetchIds (itemTrace parse (recordErrF acc) acc (oracleF acc))) :=
  filterMap_runEvents _ rfl parse recordErrF oracleF todo

/-- C1: the identifiers the run attempts to fetch are exactly the input list
minus the success-ledger contents (computed once at startup as computeTodo,
lines 128-130); the work list follows the input list order; the fetch events
of the run are the per-item fetches concatenated in work-list order, each item
fetching its own identifier once or twice; and when every input identifier is
already in the success ledger, the run performs zero fetches. -/
theorem c1_work_items (parse : String → Option Json)
    (recordErrF : String → Option (String × String))
    (oracleF : String → Nat → HttpAttempt) (inputLines : List String)
    (dir : DirState) :
    (∀ a, a ∈ fetchIds (runEvents parse recordErrF oracleF
            (computeTodo inputLines dir.successLines)) ↔
        (a ∈ load_accessions inputLines ∧ a ∉ load_downloaded dir.successLines)) ∧
    List.Sublist (computeTodo inputLines dir.successLines)
      (load_accessions inputLines) ∧
    fetchIds (runEvents parse recordErrF oracleF
        (computeTodo inputLines dir.successLines))
      = (computeTodo inputLines dir.successLines).flatMap
          (fun a => fetchIds (itemTrace parse (recordErrF a) a (oracleF a))) ∧
    (∀ a, fetchIds (itemTrace parse (recordErrF a) a (oracleF a)) = [a] ∨
          fetchIds (itemTrace parse (recordErrF a) a (oracleF a)) = [a, a]) ∧
    ((∀ a ∈ load_accessions inputLines, a ∈ load_downloaded dir.successLines) →
        fetchIds (runEvents parse recordErrF oracleF
          (computeTodo inputLines dir.successLines)) = []) := by
  have hflat := fetchIds_runEvents parse recordErrF oracleF
    (computeTodo inputLines dir.successLines)
  have hitem : ∀ a : String,
      fetchIds (itemTrace parse (recordErrF a) a (oracleF a)) = [a] ∨
      fetchIds (itemTrace parse (recordErrF a) a (oracleF a)) = [a, a] :=
    fun a => fetchIds_itemTrace parse (recordErrF a) a (oracleF a)
  refine ⟨?_, computeTodo_sublist _ _, hflat, hitem, ?_⟩
  · intro a
    rw [hflat, ← mem_computeTodo]
    rw [List.mem_flatMap]
    constructor
    · rintro ⟨b, hb, hab⟩
      rcases hitem b with hone | htwo
      · rw [hone] at hab
        simp at hab
        rwa [hab]
      · rw [htwo] at hab
        simp at hab
        rwa [hab]
    · intro ha
      refine ⟨a, ha, ?_⟩
      rcases hitem a with hone | htwo
      · simp [hone]
      · simp [htwo]
  · intro hall
    rw [hflat, computeTodo_nil_of_all hall]
    rfl

/-- Witness for C1 at concrete inputs: with ledger containing A, running on
input B, A fetches B (in the success ledger it is absent) and does not fetch
A; a run whose input is entirely in the ledger performs zero fetches. -/
theorem c1_work_items_witness :
    (("B" : String) ∈ fetchIds (runEvents (fun _ => none) (fun _ => none)
        (fun _ _ => HttpAttempt.response 200 "x")
        (computeTodo ["B", "A"] (DirState.mk [] ["A"] []).successLines))) ∧
    (¬ ("A" : String) ∈ fetchIds (runEvents (fun _ => none) (fun _ => none)
        (fun _ _ => HttpAttempt.response 200 "x")
        (computeTodo ["B", "A"] (DirState.mk [] ["A"] []).successLines))) ∧
    fetchIds (runEvents (fun _ => none) (fun _ => none)
        (fun _ _ => HttpAttempt.response 200 "x")
        (computeTodo ["A"] (DirState.mk [] ["A"] []).successLines)) = [] := by
  refine ⟨?_, ?_, ?_⟩
  · exact (c1_work_items (fun _ => none) (fun _ => none)
      (fun _ _ => HttpAttempt.response 200 "x") ["B", "A"]
      (DirState.mk [] ["A"] [])).1 "B" |>.mpr (by decide)
  · intro hmem
    have h := (c1_work_items (fun _ => none) (fun _ => none)
      (fun _ _ => HttpAttempt.response 200 "x") ["B", "A"]
      (DirState.mk [] ["A"] [])).1 "A" |>.mp hmem
    revert h
    decide
  · exact (c1_work_items (fun _ => none) (fun _ => none)
      (fun _ _ => HttpAttempt.response 200 "x") ["A"]
      (DirState.mk [] ["A"] [])).2.2.2.2 (by decide)

lemma flatMap_map' {α β : Type} (bs : List (List α)) (f : α → β) :
    bs.flatMap (fun b => b.map f) = (bs.flatten).map f := by
  induction bs with
  | nil => rfl
  | cons b rest ih => simp [List.flatMap_cons, List.flatten_cons, ih]

/-- The gathered results of the batch loop are the per-item results in
work-list order. -/
lemma runResults_eq_map (parse : String → Option Json)
    (recordErrF : String → Option (String × String))
    (oracleF : String → Nat → HttpAttempt) (todo : List String) :
    runResults parse recordErrF oracleF todo
      = todo.map (fun acc => itemResult parse (recordErrF acc) acc (oracleF acc)) := by
  unfold runResults batchResults
  rw [flatMap_map', chunks_flatten (by omega)]

/-- C6: per-identifier errors never abort the run.  Every work item yields
exactly one collected outcome, the collected outcomes are exactly the
per-item results in order (so an error in one item can not change a sibling
outcome or drop it), every item persists exactly one terminal ledger line
(success or failure), and whenever the work list is non-empty the run reaches
its final summary, whatever the per-item errors are. -/
theorem c6_isolation (parse : String → Option Json)
    (recordErrF : String → Option (String × String))
    (oracleF : String → Nat → HttpAttempt) (inputLines : List String)
    (dir : DirState) :
    runResults parse recordErrF oracleF (computeTodo inputLines dir.successLines)
        = (computeTodo inputLines dir.successLines).map
            (fun acc => itemResult parse (recordErrF acc) acc (oracleF acc)) ∧
    (runResults parse recordErrF oracleF
        (computeTodo inputLines dir.successLines)).length
      = (computeTodo inputLines dir.successLines).length ∧
    (∀ acc, (succAppends (itemTrace parse (recordErrF acc) acc (oracleF acc))).length
          + (failAppends (itemTrace parse (recordErrF acc) acc (oracleF acc))).length
        = 1) ∧
    ((computeTodo inputLines dir.successLines).isEmpty = false →
        (runMain parse recordErrF oracleF inputLines dir).summary.isSome = true) := by
  have hmap := runResults_eq_map parse recordErrF oracleF
    (computeTodo inputLines dir.successLines)
  refine ⟨hmap, by rw [hmap, List.length_map], ?_, ?_⟩
  · intro acc
    rw [succAppends_itemTrace]
    rcases failAppends_itemTrace parse (recordErrF acc) acc (oracleF acc) with
      ⟨hres, hfail⟩ | ⟨hres, e, m, hfail⟩
    · rw [hres, hfail]
      simp
    · rw [hres, hfail]
      simp
  · intro hne
    unfold runMain
    simp only [hne]
    rfl

/-- Witness for C6 at a concrete input: a batch where A fails with a non
network error and B succeeds still collects both outcomes in order, and the
run reaches its summary. -/
theorem c6_isolation_witness :
    runResults (fun _ => none) (fun _ => none)
        (fun acc _ => if acc = "A" then HttpAttempt.otherException "ValueError" "bad"
                      else HttpAttempt.response 200 "x")
        (computeTodo ["A", "B"] (DirState.mk [] [] []).successLines)
      = [false, true] ∧
    (runMain (fun _ => none) (fun _ => none)
        (fun acc _ => if acc = "A" then HttpAttempt.otherException "ValueError" "bad"
                      else HttpAttempt.response 200 "x")
        ["A", "B"] (DirState.mk [] [] [])).summary.isSome = true := by
  constructor
  · rw [(c6_isolation (fun _ => none) (fun _ => none)
      (fun acc _ => if acc = "A" then HttpAttempt.otherException "ValueError" "bad"
                    else HttpAttempt.response 200 "x")
      ["A", "B"] (DirState.mk [] [] [])).1]
    decide
  · exact (c6_isolation (fun _ => none) (fun _ => none)
      (fun acc _ => if acc = "A" then HttpAttempt.otherException "ValueError" "bad"
                    else HttpAttempt.response 200 "x")
      ["A", "B"] (DirState.mk [] [] [])).2.2.2 (by decide)

/-- C8: resume consults only the success ledger.  An identifier present in the
input and absent from the success ledger is in the work list and is fetched by
the run, whatever the failure ledger holds about it from prior runs; and the
work list is unchanged under any replacement of the failure-ledger file. -/
theorem c8_failures_not_consulted (parse : String → Option Json)
    (recordErrF : String → Option (String × String))
    (oracleF : String → Nat → HttpAttempt) (inputLines : List String)
    (dir : DirState) (a : String)
    (hin : a ∈ load_accessions inputLines)
    (hns : a ∉ load_downloaded dir.successLines)
    (hfail : ∃ l ∈ dir.failedLines, ∃ d2, l = a ++ "\t" ++ d2) :
    a ∈ computeTodo inputLines dir.successLines ∧
    Event.fetch a ∈ runEvents parse recordErrF oracleF
        (computeTodo inputLines dir.successLines) ∧
    (∀ f2 : List String,
        computeTodo inputLines
            (DirState.mk dir.records dir.successLines f2).successLines
          = computeTodo inputLines dir.successLines) := by
  have htodo : a ∈ computeTodo inputLines dir.successLines :=
    mem_computeTodo.mpr ⟨hin, hns⟩
  refine ⟨htodo, ?_, fun f2 => rfl⟩
  rw [fetch_mem_iff, fetchIds_runEvents]
  rw [List.mem_flatMap]
  refine ⟨a, htodo, ?_⟩
  rcases fetchIds_itemTrace parse (recordErrF a) a (oracleF a) with hone | htwo
  · simp [hone]
  · simp [htwo]

/-- Witness for C8 at a concrete input: B failed permanently in a prior run
(one failure-ledger line) and is not in the success ledger; the next run puts
B in its work list. -/
theorem c8_failures_not_consulted_witness :
    ("B" : String) ∈ computeTodo ["B"] (DirState.mk [] ["A"]
        ["B\tClientResponseError: 500"]).successLines :=
  (c8_failures_not_consulted (fun _ => none) (fun _ => none)
    (fun _ _ => HttpAttempt.response 200 "x") ["B"]
    (DirState.mk [] ["A"] ["B\tClientResponseError: 500"]) "B"
    (by decide) (by decide)
    ⟨"B\tClientResponseError: 500", by decide, "ClientResponseError: 500", by decide⟩).1

/-- An input file whose lines carry no surrounding whitespace (identifiers are
written as they are). -/
def canonicalLines (lines : List String) : Prop :=
  ∀ l ∈ lines, pyStrip l = l

/-- A well-formed success-ledger file: every line is a stripped non-empty
identifier and no identifier repeats. -/
def goodLedger (lines : List String) : Prop :=
  (∀ e ∈ lines, pyStrip e = e ∧ e ≠ "") ∧ lines.Nodup

lemma mem_load_accessions_canonical {input : List String} {a : String}
    (hcan : canonicalLines input) (ha : a ∈ load_accessions input) :
    pyStrip a = a ∧ a ≠ "" := by
  unfold load_accessions at ha
  rw [List.mem_filter] at ha
  obtain ⟨hmem, hne⟩ := ha
  rw [List.mem_map] at hmem
  obtain ⟨raw, hraw, hstrip⟩ := hmem
  have hcraw := hcan raw hraw
  have haraw : a = raw := by rw [← hstrip, hcraw]
  subst haraw
  exact ⟨hcraw, by simpa using hne⟩

lemma load_downloaded_of_good {lines : List String}
    (h : ∀ e ∈ lines, pyStrip e = e ∧ e ≠ "") :
    load_downloaded lines = lines := by
  unfold load_downloaded
  rw [List.map_congr_left (fun e he => (h e he).1)]
  rw [show lines.map (fun e => e) = lines.map id from rfl, List.map_id]
  rw [List.filter_eq_self.mpr]
  intro e he
  simpa using (h e he).2

lemma flatMap_if_filter (l : List String) (p : String → Bool) :
    (l.flatMap (fun a => if p a then [a] else [])) = l.filter p := by
  induction l with
  | nil => rfl
  | cons x rest ih =>
      cases hp : p x <;> simp [List.flatMap_cons, hp, ih, List.filter_cons]

/-- The success-ledger lines the whole batch loop appends are exactly the work
items whose download succeeded, in work-list order. -/
lemma succAppends_runEvents (parse : String → Option Json)
    (recordErrF : String → Option (String × String))
    (oracleF : String → Nat → HttpAttempt) (todo : List String) :
    succAppends (runEvents parse recordErrF oracleF todo)
      = todo.filter
          (fun a => itemResult parse (recordErrF a) a (oracleF a)) := by
  have h := filterMap_runEvents
    (fun e => match e with | Event.appendDownloaded a => some a | _ => none)
    rfl parse recordErrF oracleF todo
  have hcong : todo.flatMap
        (fun acc => (itemTrace parse (recordErrF acc) acc (oracleF acc)).filterMap
          (fun e => match e with | Event.appendDownloaded a => some a | _ => none))
      = todo.flatMap
          (fun acc => if itemResult parse (recordErrF acc) acc (oracleF acc)
                      then [acc] else []) :=
    List.flatMap_congr (fun acc _ => succAppends_itemTrace parse (recordErrF acc)
      acc (oracleF acc))
  calc succAppends (runEvents parse recordErrF oracleF todo)
      = todo.flatMap
          (fun acc => if itemResult parse (recordErrF acc) acc (oracleF acc)
                      then [acc] else []) := h.trans hcong
    _ = todo.filter (fun a => itemResult parse (recordErrF a) a (oracleF a)) :=
        flatMap_if_filter _ _

/-- One invocation, possibly interrupted at any event, preserves ledger
well-formedness when its input is canonical and duplicate-free: the appended
success lines are a subsequence of the work list, which excludes everything
already in the ledger. -/
lemma applyRun_good (parse : String → Option Json) (d : DirState) (r : RunSpec)
    (hd : goodLedger d.successLines) (hcan : canonicalLines r.inputLines)
    (hnd : (load_accessions r.inputLines).Nodup) :
    goodLedger (applyRun parse d r).successLines := by
  unfold applyRun
  rw [foldl_applyEvent_success]
  have happ_sub : List.Sublist
      (succAppends ((runEvents parse r.recordErrF r.oracleF
        (computeTodo r.inputLines d.successLines)).take r.stop))
      (succAppends (runEvents parse r.recordErrF r.oracleF
        (computeTodo r.inputLines d.successLines))) :=
    (List.take_sublist _ _).filterMap _
  have happ_todo : List.Sublist
      (succAppends ((runEvents parse r.recordErrF r.oracleF
        (computeTodo r.inputLines d.successLines)).take r.stop))
      (computeTodo r.inputLines d.successLines) := by
    refine happ_sub.trans ?_
    rw [succAppends_runEvents]
    exact List.filter_sublist _
  have htodo_nodup : (computeTodo r.inputLines d.successLines).Nodup :=
    (computeTodo_sublist _ _).nodup hnd
  constructor
  · intro e he
    rcases List.mem_append.mp he with hold | hnew
    · exact hd.1 e hold
    · have het : e ∈ computeTodo r.inputLines d.successLines :=
        happ_todo.subset hnew
      exact mem_load_accessions_canonical hcan
        ((computeTodo_sublist _ _).subset het)
  · rw [List.nodup_append]
    refine ⟨hd.2, happ_todo.nodup htodo_nodup, ?_⟩
    intro x hxold hxnew
    have hxt : x ∈ computeTodo r.inputLines d.successLines :=
      happ_todo.subset hxnew
    have hxn : x ∉ load_downloaded d.successLines := (mem_computeTodo.mp hxt).2
    rw [load_downloaded_of_good hd.1] at hxn
    exact hxn hxold

/-- C7 counterexample: the input list with A twice (identifiers are not
deduplicated), a fresh directory, every fetch succeeding: after one completed
run, A appears twice in the success ledger. -/
theorem c7_counterexample :
    ((runSeqDir (fun _ => none)
        [RunSpec.mk (fun _ => none) (fun _ _ => HttpAttempt.response 200 "x")
          ["A", "A"] 1000]
        (DirState.mk [] [] [])).successLines).count "A" = 2 := by
  decide

/-- C7 amended: for every sequence of runs against a directory that starts
empty, possibly interrupted at arbitrary points, in which every run has an
input list free of surrounding whitespace and free of duplicates, an
identifier appears in the success ledger at most once across the lifetime of
that directory. -/
theorem c7_ledger_at_most_once (parse : String → Option Json)
    (runs : List RunSpec)
    (hruns : ∀ r ∈ runs, canonicalLines r.inputLines ∧
        (load_accessions r.inputLines).Nodup) :
    ∀ a, ((runSeqDir parse runs (DirState.mk [] [] [])).successLines).count a
      ≤ 1 := by
  have hinv : ∀ (rs : List RunSpec) (d : DirState), goodLedger d.successLines →
      (∀ r ∈ rs, canonicalLines r.inputLines ∧
        (load_accessions r.inputLines).Nodup) →
      goodLedger (runSeqDir parse rs d).successLines := by
    intro rs
    induction rs with
    | nil =>
        intro d hd _
        exact hd
    | cons r rest ih =>
        intro d hd hall
        have hr := hall r (by simp)
        have hstep := applyRun_good parse d r hd hr.1 hr.2
        exact ih _ hstep (fun r' hr' => hall r' (by simp [hr']))
  have hgood := hinv runs (DirState.mk [] [] [])
    ⟨by intro e he; simp at he, List.nodup_nil⟩ hruns
  intro a
  exact List.nodup_iff_count_le_one.mp hgood.2 a

/-- Witness for C7 at a concrete input: one completed run on the
duplicate-free input A, B leaves at most one ledger line for A. -/
theorem c7_ledger_at_most_once_witness :
    ((runSeqDir (fun _ => none)
        [RunSpec.mk (fun _ => none) (fun _ _ => HttpAttempt.response 200 "x")
          ["A", "B"] 1000]
        (DirState.mk [] [] [])).successLines).count "A" ≤ 1 :=
  c7_ledger_at_most_once (fun _ => none)
    [RunSpec.mk (fun _ => none) (fun _ _ => HttpAttempt.response 200 "x")
      ["A", "B"] 1000]
    (by
      intro r hr
      simp only [List.mem_singleton] at hr
      subst hr
      refine ⟨?_, by decide⟩
      intro l hl
      rcases List.mem_cons.mp hl with h | h
      · subst h
        decide
      · rcases List.mem_singleton.mp h with rfl
        decide)
    "A"

lemma mem_dropWhile_of_not {α : Type} (p : α → Bool) (l : List α) (c : α)
    (hc : c ∈ l) (hp : p c = false) : c ∈ l.dropWhile p := by
  induction l with
  | nil => simp at hc
  | cons x rest ih =>
      rw [List.dropWhile_cons]
      cases hx : p x with
      | true =>
          simp only [hx, if_true]
          rcases List.mem_cons.mp hc with rfl | hcr
          · rw [hx] at hp
            cases hp
          · exact ih hcr
      | false => simpa using hc

/-- A string with at least one non-whitespace character does not strip to the
empty string. -/
lemma pyStrip_ne_empty {s : String} (c : Char) (hc : c ∈ s.data)
    (hw : c.isWhitespace = false) : pyStrip s ≠ "" := by
  intro h
  have hdata : (((s.data.dropWhile Char.isWhitespace).reverse.dropWhile
      Char.isWhitespace).reverse) = [] := congrArg String.data h
  rw [List.reverse_eq_nil_iff] at hdata
  have h1 : c ∈ s.data.dropWhile Char.isWhitespace :=
    mem_dropWhile_of_not _ _ _ hc hw
  have h2 : c ∈ (s.data.dropWhile Char.isWhitespace).reverse :=
    List.mem_reverse.mpr h1
  have h3 : c ∈ (s.data.dropWhile Char.isWhitespace).reverse.dropWhile
      Char.isWhitespace :=
    mem_dropWhile_of_not _ _ _ h2 hw
  rw [hdata] at h3
  simp at h3

lemma colon_mem_failLine (acc ename emsg : String) :
    (':' : Char) ∈ (failLine acc ename emsg).data := by
  unfold failLine
  simp only [String.data_append]
  apply List.mem_append.mpr
  left
  apply List.mem_append.mpr
  right
  decide

/-- Every failure-ledger line the run writes is non-blank: it contains the
colon of the classification separator. -/
lemma pyStrip_failLine_ne_empty (acc ename emsg : String) :
    pyStrip (failLine acc ename emsg) ≠ "" :=
  pyStrip_ne_empty ':' (colon_mem_failLine acc ename emsg) (by decide)

/-- Every failure-ledger line the batch loop appends is the failLine of some
work item. -/
lemma failAppends_runEvents_shape (parse : String → Option Json)
    (recordErrF : String → Option (String × String))
    (oracleF : String → Nat → HttpAttempt) (todo : List String) :
    ∀ l ∈ failAppends (runEvents parse recordErrF oracleF todo),
      ∃ a e m, a ∈ todo ∧ l = failLine a e m := by
  have h := filterMap_runEvents
    (fun e => match e with | Event.appendFailed l => some l | _ => none)
    rfl parse recordErrF oracleF todo
  intro l hl
  rw [show failAppends (runEvents parse recordErrF oracleF todo)
      = todo.flatMap (fun acc =>
          failAppends (itemTrace parse (recordErrF acc) acc (oracleF acc)))
    from h] at hl
  rw [List.mem_flatMap] at hl
  obtain ⟨a, ha, hl2⟩ := hl
  rcases failAppends_itemTrace parse (recordErrF a) a (oracleF a) with
    ⟨_, hf⟩ | ⟨_, e, m, hf⟩
  · rw [hf] at hl2
    simp at hl2
  · rw [hf] at hl2
    simp at hl2
    exact ⟨a, e, m, ha, hl2⟩

/-- C9 counterexample, both defects at concrete inputs.  First: a run that
completes normally but whose work list is empty (input A, ledger already
contains A) prints no summary at all.  Second: a fresh completed run on the
non-deduplicated input A, A prints succeeded equal to 1 (the set size), while
the success ledger holds 2 entries, so the printed succeeded count is not the
number of success-ledger entries. -/
theorem c9_counterexample :
    (runMain (fun _ => none) (fun _ => none)
        (fun _ _ => HttpAttempt.response 200 "x")
        ["A"] (DirState.mk [] ["A"] [])).summary = none ∧
    (runMain (fun _ => none) (fun _ => none)
        (fun _ _ => HttpAttempt.response 200 "x")
        ["A", "A"] (DirState.mk [] [] [])).summary = some (1, 0, 1) ∧
    ((runMain (fun _ => none) (fun _ => none)
        (fun _ _ => HttpAttempt.response 200 "x")
        ["A", "A"] (DirState.mk [] [] [])).finalDir.successLines).length = 2 := by
  refine ⟨?_, ?_, ?_⟩ <;> decide

/-- C9 amended: every run with a non-empty work list that completes normally
prints a summary of the form (succeeded, failed, succeeded + failed), where
succeeded is the number of distinct identifiers in the final success ledger
and failed is the number of non-blank lines of the final failure ledger; and
for a single fresh run (empty directory) whose input is duplicate-free and
free of surrounding whitespace, the printed succeeded and failed counts equal
the exact numbers of success-ledger and failure-ledger entries. -/
theorem c9_summary (parse : String → Option Json)
    (recordErrF : String → Option (String × String))
    (oracleF : String → Nat → HttpAttempt) (inputLines : List String)
    (dir : DirState)
    (hne : computeTodo inputLines dir.successLines ≠ []) :
    ((runMain parse recordErrF oracleF inputLines dir).summary
        = some (summaryCounts
            (runMain parse recordErrF oracleF inputLines dir).finalDir) ∧
      (∀ d f t, summaryCounts
            (runMain parse recordErrF oracleF inputLines dir).finalDir
          = (d, f, t) → t = d + f)) ∧
    (dir.successLines = [] → dir.failedLines = [] → canonicalLines inputLines →
      (load_accessions inputLines).Nodup →
      summaryCounts (runMain parse recordErrF oracleF inputLines dir).finalDir
        = ((runMain parse recordErrF oracleF inputLines
              dir).finalDir.successLines.length,
           (runMain parse recordErrF oracleF inputLines
              dir).finalDir.failedLines.length,
           (runMain parse recordErrF oracleF inputLines
                dir).finalDir.successLines.length
             + (runMain parse recordErrF oracleF inputLines
                  dir).finalDir.failedLines.length)) := by
  have hne' : (computeTodo inputLines dir.successLines).isEmpty = false := by
    cases h : computeTodo inputLines dir.successLines with
    | nil => exact absurd h hne
    | cons a l => rfl
  have heq : runMain parse recordErrF oracleF inputLines dir
      = { finalDir := (runEvents parse recordErrF oracleF
            (computeTodo inputLines dir.successLines)).foldl applyEvent dir,
          summary := some (summaryCounts
            ((runEvents parse recordErrF oracleF
              (computeTodo inputLines dir.successLines)).foldl applyEvent dir)) } := by
    simp [runMain, hne']
  constructor
  · constructor
    · rw [heq]
    · intro d f t hcount
      unfold summaryCounts at hcount
      injection hcount with h1 h2
      injection h2 with h2 h3
      omega
  · intro hsl hfl hcan hnd
    rw [heq]
    simp only
    set F := (runEvents parse recordErrF oracleF
      (computeTodo inputLines dir.successLines)).foldl applyEvent dir with hF
    have hS : F.successLines
        = (computeTodo inputLines dir.successLines).filter
            (fun a => itemResult parse (recordErrF a) a (oracleF a)) := by
      rw [hF, foldl_applyEvent_success, hsl, succAppends_runEvents]
      rfl
    have hFf : F.failedLines = failAppends (runEvents parse recordErrF oracleF
        (computeTodo inputLines dir.successLines)) := by
      rw [hF, foldl_applyEvent_failed, hfl]
      rfl
    have hgoodS : ∀ e ∈ F.successLines, pyStrip e = e ∧ e ≠ "" := by
      intro e he
      rw [hS] at he
      exact mem_load_accessions_canonical hcan
        ((computeTodo_sublist _ _).subset (List.mem_of_mem_filter he))
    have hnodupS : F.successLines.Nodup := by
      rw [hS]
      exact (List.filter_sublist _).nodup ((computeTodo_sublist _ _).nodup hnd)
    have hld : load_downloaded F.successLines = F.successLines :=
      load_downloaded_of_good hgoodS
    have hdedup : F.successLines.dedup = F.successLines :=
      List.dedup_eq_self.mpr hnodupS
    have hkeep : F.failedLines.filter (fun l => pyStrip l != "")
        = F.failedLines := by
      rw [List.filter_eq_self.mpr]
      intro l hl
      rw [hFf] at hl
      obtain ⟨a, e, m, ha, rfl⟩ := failAppends_runEvents_shape parse recordErrF
        oracleF (computeTodo inputLines dir.successLines) l hl
      simpa using pyStrip_failLine_ne_empty a e m
    unfold summaryCounts
    rw [hld, hdedup, hkeep]

/-- Witness for C9 at a concrete input: fresh run on input A, B where A
succeeds and B fails with HTTP 500 twice; the summary counts are the exact
ledger entry counts. -/
theorem c9_summary_witness :
    (runMain (fun _ => none) (fun _ => none)
        (fun acc _ => if acc = "B" then HttpAttempt.response 500 "e"
                      else HttpAttempt.response 200 "x")
        ["A", "B"] (DirState.mk [] [] [])).summary
      = some (summaryCounts (runMain (fun _ => none) (fun _ => none)
          (fun acc _ => if acc = "B" then HttpAttempt.response 500 "e"
                        else HttpAttempt.response 200 "x")
          ["A", "B"] (DirState.mk [] [] [])).finalDir) ∧
    summaryCounts (runMain (fun _ => none) (fun _ => none)
        (fun acc _ => if acc = "B" then HttpAttempt.response 500 "e"
                      else HttpAttempt.response 200 "x")
        ["A", "B"] (DirState.mk [] [] [])).finalDir
      = ((runMain (fun _ => none) (fun _ => none)
            (fun acc _ => if acc = "B" then HttpAttempt.response 500 "e"
                          else HttpAttempt.response 200 "x")
            ["A", "B"] (DirState.mk [] [] [])).finalDir.successLines.length,
         (runMain (fun _ => none) (fun _ => none)
            (fun acc _ => if acc = "B" then HttpAttempt.response 500 "e"
                          else HttpAttempt.response 200 "x")
            ["A", "B"] (DirState.mk [] [] [])).finalDir.failedLines.length,
         (runMain (fun _ => none) (fun _ => none)
              (fun acc _ => if acc = "B" then HttpAttempt.response 500 "e"
                            else HttpAttempt.response 200 "x")
              ["A", "B"] (DirState.mk [] [] [])).finalDir.successLines.length
           + (runMain (fun _ => none) (fun _ => none)
                (fun acc _ => if acc = "B" then HttpAttempt.response 500 "e"
                              else HttpAttempt.response 200 "x")
                ["A", "B"] (DirState.mk [] [] [])).finalDir.failedLines.length) := by
  have h := c9_summary (fun _ => none) (fun _ => none)
    (fun acc _ => if acc = "B" then HttpAttempt.response 500 "e"
                  else HttpAttempt.response 200 "x")
    ["A", "B"] (DirState.mk [] [] []) (by decide)
  refine ⟨h.1.1, h.2 rfl rfl ?_ (by decide)⟩
  intro l hl
  rcases List.mem_cons.mp hl with rfl | h2
  · decide
  · rcases List.mem_singleton.mp h2 with rfl
    decide

lemma succAppends_cons (e : Event) (l : List Event) :
    succAppends (e :: l)
      = (match e with | Event.appendDownloaded a => [a] | _ => [])
          ++ succAppends l := by
  cases e <;> simp [succAppends, List.filterMap_cons]

lemma recIds_cons (e : Event) (l : List Event) :
    recIds (e :: l) = (recAcc e).toList ++ recIds l := by
  cases hre : recAcc e <;> simp [recIds, List.filterMap_cons, hre]

lemma recordFirstFrom_mono :
    ∀ (l : List Event) (S S' : List String), (∀ a ∈ S, a ∈ S') →
      recordFirstFrom S l → recordFirstFrom S' l := by
  intro l
  induction l with
  | nil =>
      intro S S' _ _
      trivial
  | cons e rest ih =>
      intro S S' hss h
      obtain ⟨h1, h2⟩ := h
      refine ⟨fun a ha => hss a (h1 a ha), ?_⟩
      refine ih _ _ ?_ h2
      intro a ha
      rcases List.mem_append.mp ha with h | h
      · exact List.mem_append.mpr (Or.inl (hss a h))
      · exact List.mem_append.mpr (Or.inr h)

/-- Each download_accession trace appends to the success ledger only after it
appended the record tagged with the same accession: on the success path the
record append of line 104 is awaited before the ledger append of line 105, and
every failure path appends no ledger line at all. -/
lemma recordFirstFrom_itemTrace (parse : String → Option Json)
    (recordErr : Option (String × String)) (acc : String)
    (oracle : Nat → HttpAttempt) :
    recordFirstFrom [] (itemTrace parse recordErr acc oracle) := by
  unfold itemTrace download_accession
  cases h0 : fetch_once parse acc (oracle 0) with
  | ok payload =>
      cases recordErr <;> simp [successTail, recordFirstFrom, recAcc]
  | error err =>
      cases err with
      | other e m => simp [recordFirstFrom, recAcc]
      | net e m =>
          cases h1 : fetch_once parse acc (oracle 1) with
          | ok payload =>
              cases recordErr <;> simp [successTail, recordFirstFrom, recAcc]
          | error err2 => cases err2 <;> simp [recordFirstFrom, recAcc]

/-- Invariant of any interleaving of task traces: if every task appends its
ledger line only after its own record append (relative to records S already
written), then in every prefix of the interleaving, every ledger append is
covered by S or by a record append inside the prefix. -/
lemma interleaving_invariant {ls : List (List Event)} {tr : List Event}
    (h : Interleaving ls tr) :
    ∀ S : List String, (∀ l ∈ ls, recordFirstFrom S l) →
      ∀ p : List Event, p <+: tr → ∀ a, a ∈ succAppends p →
        a ∈ S ∨ a ∈ recIds p := by
  induction h with
  | nil hnil =>
      intro S hS p hp a ha
      have hp0 : p = [] := List.prefix_nil.mp hp
      subst hp0
      simp [succAppends] at ha
  | cons i e tl hget hint ih =>
      rename_i ls0 tr0
      intro S hS p hp a ha
      have hmem := List.get?_mem hget
      obtain ⟨hhead, htail⟩ := hS _ hmem
      have hS' : ∀ l ∈ List.set ls0 i tl,
          recordFirstFrom (S ++ (recAcc e).toList) l := by
        intro l hl
        rcases List.mem_or_eq_of_mem_set hl with hl2 | rfl
        · exact recordFirstFrom_mono l _ _
            (fun a2 ha2 => List.mem_append.mpr (Or.inl ha2)) (hS l hl2)
        · exact htail
      cases p with
      | nil => simp [succAppends] at ha
      | cons e0 p' =>
          obtain ⟨t, ht⟩ := hp
          rw [List.cons_append] at ht
          injection ht with he0 htr
          subst he0
          have hp' : p' <+: _ := ⟨t, htr⟩
          rw [succAppends_cons] at ha
          rw [recIds_cons]
          rcases List.mem_append.mp ha with hhd | htl2
          · cases e0 <;> simp at hhd
            subst hhd
            exact Or.inl (hhead _ rfl)
          · rcases ih _ hS' p' hp' a htl2 with hS2 | hrec
            · rcases List.mem_append.mp hS2 with h | h
              · exact Or.inl h
              · exact Or.inr (List.mem_append.mpr (Or.inl h))
            · exact Or.inr (List.mem_append.mpr (Or.inr hrec))

/-- C10: in every interleaving of the traces of concurrently running
download_accession tasks and at every point (every prefix), each identifier
appended to the success ledger already has its record in the record log; and
when the record append of an identifier raises, no success-ledger line for it
is ever appended (the ledger append happens only after the record append
completed without error). -/
theorem c10_record_precedes_ledger (parse : String → Option Json)
    (recordErrF : String → Option (String × String))
    (oracleF : String → Nat → HttpAttempt) (accs : List String)
    (tr : List Event)
    (hint : Interleaving
        (accs.map (fun acc => itemTrace parse (recordErrF acc) acc (oracleF acc)))
        tr)
    (p : List Event) (hp : p <+: tr) :
    (∀ a, a ∈ succAppends p → a ∈ recIds p) ∧
    (∀ acc em, recordErrF acc = some em →
        succAppends (itemTrace parse (recordErrF acc) acc (oracleF acc)) = []) := by
  constructor
  · intro a ha
    have hforall : ∀ l ∈ accs.map
        (fun acc => itemTrace parse (recordErrF acc) acc (oracleF acc)),
        recordFirstFrom [] l := by
      intro l hl
      rw [List.mem_map] at hl
      obtain ⟨acc, hacc, rfl⟩ := hl
      exact recordFirstFrom_itemTrace parse (recordErrF acc) acc (oracleF acc)
    rcases interleaving_invariant hint [] hforall p hp a ha with h | h
    · simp at h
    · exact h
  · intro acc em hre
    rw [succAppends_itemTrace, hre, itemResult_recordErr]
    rfl

/-- Witness for C10 at a concrete input: the one-task interleaving of a
successful download of A; in the whole trace, the ledger append of A is
covered by its record append. -/
theorem c10_record_precedes_ledger_witness :
    ("A" : String) ∈ recIds (itemTrace (fun _ => none) none "A"
        (fun _ => HttpAttempt.response 200 "x")) := by
  have h0 : Interleaving [([] : List Event)] [] :=
    Interleaving.nil (by intro l hl; simpa using hl)
  have h1 : Interleaving [[Event.tick]] [Event.tick] :=
    Interleaving.cons 0 Event.tick [] rfl h0
  have h2 : Interleaving [[Event.appendDownloaded "A", Event.tick]]
      [Event.appendDownloaded "A", Event.tick] :=
    Interleaving.cons 0 (Event.appendDownloaded "A") [Event.tick] rfl h1
  have h3 : Interleaving
      [[Event.appendRecord (Json.obj [("accession", Json.str "A"),
          ("data", Json.obj [("accession", Json.str "A"), ("raw", Json.str "x")])]),
        Event.appendDownloaded "A", Event.tick]]
      [Event.appendRecord (Json.obj [("accession", Json.str "A"),
          ("data", Json.obj [("accession", Json.str "A"), ("raw", Json.str "x")])]),
        Event.appendDownloaded "A", Event.tick] :=
    Interleaving.cons 0 _ _ rfl h2
  have h4 : Interleaving
      [[Event.fetch "A",
        Event.appendRecord (Json.obj [("accession", Json.str "A"),
          ("data", Json.obj [("accession", Json.str "A"), ("raw", Json.str "x")])]),
        Event.appendDownloaded "A", Event.tick]]
      [Event.fetch "A",
        Event.appendRecord (Json.obj [("accession", Json.str "A"),
          ("data", Json.obj [("accession", Json.str "A"), ("raw", Json.str "x")])]),
        Event.appendDownloaded "A", Event.tick] :=
    Interleaving.cons 0 _ _ rfl h3
  have hint : Interleaving
      (["A"].map (fun acc => itemTrace (fun _ => none) none acc
        (fun _ => HttpAttempt.response 200 "x")))
      (itemTrace (fun _ => none) none "A"
        (fun _ => HttpAttempt.response 200 "x")) := h4
  exact (c10_record_precedes_ledger (fun _ => none) (fun _ => none)
      (fun _ _ => HttpAttempt.response 200 "x") ["A"] _ hint _
      (List.prefix_refl _)).1 "A" (by decide)

end BvBrc
